import Mathlib

/-!
Shallow embedding of the basketcase repository's core
(`basketcase/services.py`, `basketcase/scheduler.py`, `basketcase/api.py`,
`basketcase/models.py`) for checking its natural-language specification.

Modelling conventions:
* Python `float` prices and index values are modelled as `ℚ` (the claims are
  about exact arithmetic identities of the computation, not rounding).
* `datetime` timestamps are modelled as `ℤ` (only ordering and equality of
  timestamps matter to the code under study).
* The SQLAlchemy session/database is modelled as explicit record state
  (`DB`, and `Sess` for the scheduler's pending/committed split).
* Python exceptions are modelled with `Except`; a raised exception leaves the
  database component of the result unchanged when no commit happened first.
-/

deriving instance DecidableEq for Except

namespace Basketcase

/-- `models.PriceHistory`: one timestamped price observation (a PricePoint). -/
structure PricePoint where
  product_id : String
  store_id : String
  price : ℚ
  promo_price : Option ℚ
  captured_at : ℤ
deriving DecidableEq, Repr

/-- `models.Basket` (fields the services read). -/
structure Basket where
  id : ℕ
  name : String
  store_id : String
  created_at : ℤ
deriving DecidableEq, Repr

/-- `models.BasketItem`: composite identity `(basket_id, product_id)`. -/
structure BasketItem where
  basket_id : ℕ
  product_id : String
  quantity : ℤ
  added_at : ℤ
deriving DecidableEq, Repr

/-- `models.InflationIndex` (fields the services write). -/
structure InflationIndex where
  basket_id : ℕ
  base_index : ℚ
  current_index : ℚ
  base_date : ℤ
  calculation_time : ℤ
deriving DecidableEq, Repr

/-- `models.ErrorLog` (fields the scheduler writes via `ErrorService.log_error`). -/
structure ErrorLog where
  level : String
  component : String
  message : String
  details : String
deriving DecidableEq, Repr

/-- The relational store, restricted to the tables the studied code touches. -/
structure DB where
  baskets : List Basket
  basket_items : List BasketItem
  prices : List PricePoint
  indices : List InflationIndex
deriving DecidableEq, Repr

/-- Ascending `captured_at` comparison: the key used by
`sorted(..., key=lambda p: p.captured_at)` and SQL `ORDER BY captured_at`. -/
def leAsc (a b : PricePoint) : Prop := a.captured_at ≤ b.captured_at

/-- Descending `captured_at` comparison: the key used by
`sorted(..., key=lambda p: p.captured_at, reverse=True)` and
`ORDER BY captured_at DESC`. -/
def leDesc (a b : PricePoint) : Prop := b.captured_at ≤ a.captured_at

instance : DecidableRel leAsc := fun a b =>
  inferInstanceAs (Decidable (a.captured_at ≤ b.captured_at))

instance : DecidableRel leDesc := fun a b =>
  inferInstanceAs (Decidable (b.captured_at ≤ a.captured_at))

instance : IsTotal PricePoint leAsc :=
  ⟨fun a b => le_total a.captured_at b.captured_at⟩

instance : IsTrans PricePoint leAsc :=
  ⟨fun _ _ _ h1 h2 => le_trans h1 h2⟩

instance : IsTotal PricePoint leDesc :=
  ⟨fun a b => le_total b.captured_at a.captured_at⟩

instance : IsTrans PricePoint leDesc :=
  ⟨fun _ _ _ h1 h2 => le_trans h2 h1⟩

/-- `services.py` lines 300-309: the base price the calculator selects —
`sorted([p for p in product_prices if p.captured_at <= basket.created_at],
key=lambda p: p.captured_at)[0]`, i.e. the head of the ascending sort of the
qualifying points (`None` when no point qualifies). -/
def selectBasePrice (created_at : ℤ) (product_prices : List PricePoint) :
    Option PricePoint :=
  ((product_prices.filter (fun p => p.captured_at ≤ created_at)).insertionSort
    leAsc).head?

/-- `services.py` lines 311-317: the current price —
`sorted(product_prices, key=lambda p: p.captured_at, reverse=True)[0]`
(`None` when the product has no points at all). -/
def selectCurrentPrice (product_prices : List PricePoint) : Option PricePoint :=
  (product_prices.insertionSort leDesc).head?

/-- The base price as the specification words it, for comparison with
`selectBasePrice` (which embeds the source): the point with the LATEST
`captured_at` that is `<= basket.created_at`. -/
def selectBasePriceSpec (created_at : ℤ) (product_prices : List PricePoint) :
    Option PricePoint :=
  ((product_prices.filter (fun p => p.captured_at ≤ created_at)).insertionSort
    leDesc).head?

/-- Accumulator of the per-item loop of `calculate_basket_inflation`
(`total_base_value`, `total_current_value`, `base_date`). -/
structure CalcAcc where
  total_base : ℚ
  total_current : ℚ
  base_date : Option ℤ
deriving DecidableEq, Repr

/-- `services.py` line 295: `[p for p in all_prices if p.product_id ==
item.product_id]` — the price rows of one item's product. -/
def itemProductPrices (all_prices : List PricePoint) (item : BasketItem) :
    List PricePoint :=
  all_prices.filter (fun p => p.product_id == item.product_id)

/-- `services.py` lines 291-335: one iteration of the per-item loop.  An item
missing either price is skipped (`continue`) and contributes nothing; the
empty-`product_prices` `continue` is subsumed because both selections return
`none` on the empty list. -/
def processItem (created_at : ℤ) (all_prices : List PricePoint)
    (acc : CalcAcc) (item : BasketItem) : CalcAcc :=
  match selectBasePrice created_at (itemProductPrices all_prices item),
        selectCurrentPrice (itemProductPrices all_prices item) with
  | some bp, some cp =>
    { total_base := acc.total_base + bp.price * (item.quantity : ℚ)
      total_current := acc.total_current + cp.price * (item.quantity : ℚ)
      base_date :=
        match acc.base_date with
        | none => some bp.captured_at
        | some d => if bp.captured_at < d then some bp.captured_at else some d }
  | _, _ => acc

/-- The quantity-weighted base value one item contributes when it resolves a
base price (`base_price.price * item.quantity`), `0` otherwise. -/
def itemBaseValue (created_at : ℤ) (all_prices : List PricePoint)
    (item : BasketItem) : ℚ :=
  match selectBasePrice created_at (itemProductPrices all_prices item) with
  | some bp => bp.price * (item.quantity : ℚ)
  | none => 0

/-- The quantity-weighted current value one item contributes when it resolves
a current price (`current_price.price * item.quantity`), `0` otherwise. -/
def itemCurrentValue (all_prices : List PricePoint) (item : BasketItem) : ℚ :=
  match selectCurrentPrice (itemProductPrices all_prices item) with
  | some cp => cp.price * (item.quantity : ℚ)
  | none => 0

/-- Errors `InflationService.calculate_basket_inflation` raises (both are
`ValueError` in Python, distinguished by message; the spec calls them
`NotFoundError` and `EmptyBasketError`). -/
inductive CalcError where
  | notFound
  | emptyBasket
deriving DecidableEq, Repr

/-- The basket's item rows (the `basket.items` relationship). -/
def basketItemsOf (bitems_all : List BasketItem) (basket_id : ℕ) :
    List BasketItem :=
  bitems_all.filter (fun it => it.basket_id == basket_id)

/-- `services.py` lines 272-280: the `all_prices` SQL query — price history
restricted to the basket's products and store, ordered ascending by
`captured_at`. -/
def allPricesOf (prices : List PricePoint) (bitems : List BasketItem)
    (store_id : String) : List PricePoint :=
  (prices.filter (fun p =>
    (bitems.map (fun it => it.product_id)).contains p.product_id
      && p.store_id == store_id)).insertionSort leAsc

/-- `services.py` lines 251-352: the pure computation of
`InflationService.calculate_basket_inflation` before the index upsert.  Reads
only baskets, basket items and price history.  Returns the inflation percent
and the base date passed on to `_update_inflation_index`. -/
def calcCore (baskets : List Basket) (bitems_all : List BasketItem)
    (prices : List PricePoint) (basket_id : ℕ) :
    Except CalcError (ℚ × ℤ) :=
  match baskets.find? (fun b => b.id == basket_id) with
  | none => .error .notFound
  | some basket =>
    let bitems := basketItemsOf bitems_all basket_id
    if bitems.isEmpty then .error .emptyBasket
    else
      let all_prices := allPricesOf prices bitems basket.store_id
      let acc := bitems.foldl (processItem basket.created_at all_prices)
        ⟨0, 0, none⟩
      if acc.total_base = 0 then .ok (0, basket.created_at)
      else .ok (((acc.total_current / acc.total_base) - 1) * 100,
                acc.base_date.getD basket.created_at)

/-- `services.py` lines 374-396 (`_update_inflation_index`): update the first
`InflationIndex` row with this `basket_id` in place, or append a new row. -/
def upsertIndex (idx : InflationIndex) : List InflationIndex →
    List InflationIndex
  | [] => [idx]
  | i :: rest =>
    if i.basket_id == idx.basket_id then idx :: rest
    else i :: upsertIndex idx rest

/-- First `InflationIndex` row for a basket (`query(...).first()`). -/
def findIndex? (db : DB) (basket_id : ℕ) : Option InflationIndex :=
  db.indices.find? (fun i => i.basket_id == basket_id)

/-- `InflationService.calculate_basket_inflation` including the
`_update_inflation_index` upsert: `base_index = 100.0`,
`current_index = 100.0 + inflation`.  On a raised error the database is
unchanged (the two `raise` sites precede every write). -/
def calculate_basket_inflation (db : DB) (basket_id : ℕ) (now : ℤ) :
    Except CalcError (ℚ × ℤ) × DB :=
  match calcCore db.baskets db.basket_items db.prices basket_id with
  | .error e => (.error e, db)
  | .ok (inflation, base_date) =>
    let idx : InflationIndex :=
      ⟨basket_id, 100, 100 + inflation, base_date, now⟩
    (.ok (inflation, now), { db with indices := upsertIndex idx db.indices })

/-- Errors `BasketService.add_to_basket` raises (both `ValueError` in Python;
the spec calls them `NotFoundError` and `CapacityError`). -/
inductive BasketError where
  | notFound
  | capacity
deriving DecidableEq, Repr

/-- `services.py` lines 181-190: overwrite the quantity of the first basket
item matching `(basket_id, product_id)` (SQLAlchemy `scalar` returns the first
match; the composite primary key makes it unique in practice). -/
def setQuantity (bid : ℕ) (pid : String) (q : ℤ) :
    List BasketItem → List BasketItem
  | [] => []
  | it :: rest =>
    if it.basket_id == bid && it.product_id == pid then
      { it with quantity := q } :: rest
    else it :: setQuantity bid pid q rest

/-- First basket item matching `(basket_id, product_id)` (the `existing`
lookup of `add_to_basket`). -/
def findItem? (db : DB) (bid : ℕ) (pid : String) : Option BasketItem :=
  db.basket_items.find? (fun it => it.basket_id == bid && it.product_id == pid)

/-- `services.py` lines 169-200 (`BasketService.add_to_basket`): basket lookup,
then the capacity check `len(basket.items) >= 50` (before the existing-item
check), then overwrite-or-insert. -/
def add_to_basket (db : DB) (basket_id : ℕ) (product_id : String)
    (quantity : ℤ) (now : ℤ) : Except BasketError BasketItem × DB :=
  match db.baskets.find? (fun b => b.id == basket_id) with
  | none => (.error .notFound, db)
  | some _ =>
    if (basketItemsOf db.basket_items basket_id).length ≥ 50 then
      (.error .capacity, db)
    else
      match findItem? db basket_id product_id with
      | some existing =>
        (.ok { existing with quantity := quantity },
         { db with basket_items :=
            setQuantity basket_id product_id quantity db.basket_items })
      | none =>
        let item : BasketItem := ⟨basket_id, product_id, quantity, now⟩
        (.ok item, { db with basket_items := db.basket_items ++ [item] })

/-- `services.py` lines 134-146 (`ProductService.get_product_prices`): select
price history rows matching the products and store, ordered by
`captured_at` DESCENDING (`order_by(PriceHistory.captured_at.desc())`). -/
def get_product_prices (db : DB) (product_ids : List String)
    (store_id : String) : List PricePoint :=
  (db.prices.filter (fun p =>
    product_ids.contains p.product_id && p.store_id == store_id)).insertionSort
    leDesc

/-- The `price.regular` JSON field of one upstream price record: absent,
a number, or a truthy value `float()` cannot parse (raises `ValueError`). -/
inductive RegularPrice where
  | missing
  | num (q : ℚ)
  | malformed
deriving DecidableEq, Repr

/-- One element of a record's `items` array: its `price.regular` and
`price.promo` fields. -/
structure APIItem where
  regular : RegularPrice
  promo : Option ℚ
deriving DecidableEq, Repr

/-- One upstream price record as the consumers expect it:
`{productId, items:[{price:{regular, promo?}}]}`. -/
structure APIPriceRecord where
  productId : String
  items : List APIItem
deriving DecidableEq, Repr

/-- One element yielded by iterating `prices_data`.  Iterating a `list` of
record dicts yields `record` elements; iterating the `Dict[str, float]` that
`KrogerAPI.get_product_prices` actually returns yields its string keys
(`str` elements). -/
inductive PriceData where
  | str (s : String)
  | record (r : APIPriceRecord)
deriving DecidableEq, Repr

/-- `api.py` lines 138-174: `KrogerAPI.get_product_prices` returns
`Dict[str, float]` (product id → regular price).  Modelled as an association
list; iterating it in Python yields the keys, i.e. `str` elements. -/
def dictToIter (d : List (String × ℚ)) : List PriceData :=
  d.map (fun kv => .str kv.1)

/-- Exceptions the price-consuming loops can raise: `AttributeError` from
calling `.get` on a string element, `ValueError` from `float()` on an
unparsable truthy value. -/
inductive SvcError where
  | attributeError
  | valueError
deriving DecidableEq, Repr

/-- `price_info.get("promo")` handling shared by both consumers:
`float(promo_price) if promo_price else None` (falsy `0` becomes `None`). -/
def promoField (promo : Option ℚ) : Option ℚ :=
  promo.bind (fun p => if p = 0 then none else some p)

/-- `services.py` lines 107-130: one iteration of the
`ProductService.update_prices` loop.  A string element raises
`AttributeError` at `price_data.get("items")`; a record with empty `items`
or falsy `regular` is skipped; otherwise a `PriceHistory` row is built. -/
def processRecord (store_id : String) (now : ℤ) :
    PriceData → Except SvcError (Option PricePoint)
  | .str _ => .error .attributeError
  | .record r =>
    match r.items with
    | [] => .ok none
    | item0 :: _ =>
      match item0.regular with
      | .missing => .ok none
      | .malformed => .error .valueError
      | .num q =>
        if q = 0 then .ok none
        else .ok (some ⟨r.productId, store_id, q, promoField item0.promo, now⟩)

/-- The rows `ProductService.update_prices` accumulates before its single
final commit; an exception mid-loop propagates and nothing is committed. -/
def processRecords (store_id : String) (now : ℤ) :
    List PriceData → Except SvcError (List PricePoint)
  | [] => .ok []
  | d :: ds =>
    match processRecord store_id now d with
    | .error e => .error e
    | .ok none => processRecords store_id now ds
    | .ok (some row) => (processRecords store_id now ds).map (row :: ·)

/-- `services.py` lines 100-132 (`ProductService.update_prices`): iterate the
fetched `prices_data`, `db.add` each usable row, commit once at the end.  An
exception leaves the database unchanged (the pending adds are never
committed). -/
def update_prices (db : DB) (prices_data : List PriceData)
    (store_id : String) (now : ℤ) : Except SvcError Unit × DB :=
  match processRecords store_id now prices_data with
  | .error e => (.error e, db)
  | .ok rows => (.ok (), { db with prices := db.prices ++ rows })

/-- The SQLAlchemy session during a scheduler run: uncommitted pending adds
versus committed rows, for price history and error-log rows. -/
structure Sess where
  pendingPrices : List PricePoint
  prices : List PricePoint
  pendingErrors : List ErrorLog
  errors : List ErrorLog
deriving DecidableEq, Repr

/-- `session.commit()`: every pending add becomes durable. -/
def Sess.commit (s : Sess) : Sess :=
  ⟨[], s.prices ++ s.pendingPrices, [], s.errors ++ s.pendingErrors⟩

/-- `session.rollback()`: pending adds are discarded; committed rows stay. -/
def Sess.rollback (s : Sess) : Sess :=
  ⟨[], s.prices, [], s.errors⟩

/-- `services.py` lines 413-426 (`ErrorService.log_error`): add an `ErrorLog`
row and COMMIT the session — committing any other pending adds with it. -/
def log_error (s : Sess) (level component message details : String) : Sess :=
  Sess.commit { s with pendingErrors :=
    s.pendingErrors ++ [⟨level, component, message, details⟩] }

/-- `scheduler.py` lines 63-80: the skip checks of the scheduler's inner loop.
Unlike `ProductService.update_prices`, a non-dict element is skipped by the
`isinstance` guard rather than raising, and a falsy `productId` is skipped.
`float()` on a malformed truthy `regular` still raises. -/
def schedProcessData (store_id : String) (now : ℤ) :
    PriceData → Except SvcError (Option PricePoint)
  | .str _ => .ok none
  | .record r =>
    if r.productId = "" then .ok none
    else
      match r.items with
      | [] => .ok none
      | item0 :: _ =>
        match item0.regular with
        | .missing => .ok none
        | .malformed => .error .valueError
        | .num q =>
          if q = 0 then .ok none
          else .ok (some ⟨r.productId, store_id, q, promoField item0.promo,
                          now⟩)

/-- `scheduler.py` lines 63-92: run the inner loop over one store's fetched
`prices_data`, performing `session.add` for each usable row.  Returns the
session after the loop and whether an exception escaped mid-loop (leaving the
earlier adds pending). -/
def schedAddRows (store_id : String) (now : ℤ) :
    Sess → List PriceData → Sess × Bool
  | s, [] => (s, false)
  | s, d :: ds =>
    match schedProcessData store_id now d with
    | .error _ => (s, true)
    | .ok none => schedAddRows store_id now s ds
    | .ok (some row) =>
      schedAddRows store_id now
        { s with pendingPrices := s.pendingPrices ++ [row] } ds

/-- `scheduler.py` lines 97-106: the per-store `except` handler —
`ErrorService.log_error` (which COMMITS the session, pending price rows
included) followed by `session.rollback()` and `continue`. -/
def handleStoreError (s : Sess) (store_id : String) (details : String) : Sess :=
  Sess.rollback (log_error s "ERROR" "SCHEDULER"
    ("Failed to update prices for store " ++ store_id) details)

/-- `scheduler.py` lines 60-106: handle one store's batch.  The fetch result
is an input: `.error` models `api.get_product_prices` raising.  On success the
batch is committed (`session.commit()` after the loop); on an exception the
handler logs and rolls back and the run continues. -/
def processStoreBatch (now : ℤ) (s : Sess)
    (batch : String × Except SvcError (List PriceData)) : Sess :=
  match batch.2 with
  | .error _ => handleStoreError s batch.1 "fetch"
  | .ok prices_data =>
    match schedAddRows batch.1 now s prices_data with
    | (s1, false) => Sess.commit s1
    | (s1, true) => handleStoreError s1 batch.1 "persist"

/-- `scheduler.py` lines 46-108 (`PriceUpdateScheduler._update_prices`), with
the per-store fetch results supplied as input: process every store's batch in
turn, isolating failures per store. -/
def sched_update_prices (now : ℤ) (s : Sess)
    (batches : List (String × Except SvcError (List PriceData))) : Sess :=
  batches.foldl (processStoreBatch now) s

/-- The empty session at the start of a run. -/
def sess0 : Sess := ⟨[], [], [], []⟩

/-! Concrete instances used by the counterexample and witness theorems. -/

/-- An empty database. -/
def dbEmpty : DB := ⟨[], [], [], []⟩

/-- Basket 1 at store `S` created at time 3, holding product `P` with
quantity 1; product `P` has two price points at or before basket creation:
10 at time 1 and 12 at time 2. -/
def dbC1 : DB :=
  ⟨[⟨1, "b", "S", 3⟩], [⟨1, "P", 1, 0⟩],
   [⟨"P", "S", 10, none, 1⟩, ⟨"P", "S", 12, none, 2⟩], []⟩

/-- Basket 1 already holding the maximum of 50 distinct items
`p0`, ..., `p49`. -/
def dbC5 : DB :=
  ⟨[⟨1, "full", "S", 0⟩],
   (List.range 50).map (fun i => ⟨1, "p" ++ toString i, 1, 0⟩), [], []⟩

/-- Basket 1 with a single item, well under capacity. -/
def dbW5 : DB := ⟨[⟨1, "w", "S", 0⟩], [⟨1, "p0", 1, 0⟩], [], []⟩

/-- An upstream record whose `price.regular` is the negative number -5. -/
def negRec : APIPriceRecord := ⟨"P", [⟨.num (-5), none⟩]⟩

/-- A well-formed upstream record with the given product id and price. -/
def goodRec (pid : String) (q : ℚ) : APIPriceRecord := ⟨pid, [⟨.num q, none⟩]⟩

/-- An upstream record whose truthy `price.regular` makes `float()` raise. -/
def badRec : APIPriceRecord := ⟨"P2", [⟨.malformed, none⟩]⟩

/-- Two price points for product `P` at store `S`, captured at times 1
and 2. -/
def dbC9 : DB :=
  ⟨[], [], [⟨"P", "S", 10, none, 1⟩, ⟨"P", "S", 11, none, 2⟩], []⟩

/-- Basket 1 (store `S`, created at 3) with product `P` quantity 2; one price
point before creation (10 at time 1) and one after (11 at time 5). -/
def dbW2 : DB :=
  ⟨[⟨1, "w2", "S", 3⟩], [⟨1, "P", 2, 0⟩],
   [⟨"P", "S", 10, none, 1⟩, ⟨"P", "S", 11, none, 5⟩], []⟩

/-- Basket 1 (store `S`, created at 3) with product `P` quantity 1, whose only
price point is after basket creation (so no base price resolves). -/
def dbW3 : DB :=
  ⟨[⟨1, "w3", "S", 3⟩], [⟨1, "P", 1, 0⟩], [⟨"P", "S", 10, none, 9⟩], []⟩

/-!  Shared helper lemmas. -/

theorem find?_upsertIndex (idx : InflationIndex) :
    ∀ l : List InflationIndex,
      (upsertIndex idx l).find? (fun i => i.basket_id == idx.basket_id)
        = some idx
  | [] => by simp [upsertIndex]
  | i :: rest => by
    by_cases h : (i.basket_id == idx.basket_id) = true
    · simp [upsertIndex, h]
    · simp only [upsertIndex, h]
      rw [if_neg (by simp [h])]
      simp only [List.find?, h]
      exact find?_upsertIndex idx rest

theorem calculate_error_eq (db : DB) (bid : ℕ) (t : ℤ) (e : CalcError)
    (h : calcCore db.baskets db.basket_items db.prices bid = .error e) :
    calculate_basket_inflation db bid t = (.error e, db) := by
  unfold calculate_basket_inflation
  rw [h]

theorem calculate_ok_eq (db : DB) (bid : ℕ) (t : ℤ) (inf bd : _)
    (h : calcCore db.baskets db.basket_items db.prices bid = .ok (inf, bd)) :
    calculate_basket_inflation db bid t
      = (.ok (inf, t),
         { db with indices :=
            upsertIndex ⟨bid, 100, 100 + inf, bd, t⟩ db.indices }) := by
  unfold calculate_basket_inflation
  rw [h]

theorem calcCore_some (baskets : List Basket) (bitems : List BasketItem)
    (prices : List PricePoint) (bid : ℕ) (b : Basket)
    (hb : baskets.find? (fun x => x.id == bid) = some b)
    (hne : (basketItemsOf bitems bid).isEmpty = false) :
    calcCore baskets bitems prices bid =
      (let bitemsb := basketItemsOf bitems bid
       let aps := allPricesOf prices bitemsb b.store_id
       let acc := bitemsb.foldl (processItem b.created_at aps) ⟨0, 0, none⟩
       if acc.total_base = 0 then .ok (0, b.created_at)
       else .ok (((acc.total_current / acc.total_base) - 1) * 100,
                 acc.base_date.getD b.created_at)) := by
  unfold calcCore
  simp only [hb, hne, Bool.false_eq_true, if_false]

theorem calcCore_none (baskets : List Basket) (bitems : List BasketItem)
    (prices : List PricePoint) (bid : ℕ)
    (hb : baskets.find? (fun x => x.id == bid) = none) :
    calcCore baskets bitems prices bid = .error .notFound := by
  unfold calcCore
  rw [hb]

theorem calcCore_empty (baskets : List Basket) (bitems : List BasketItem)
    (prices : List PricePoint) (bid : ℕ) (b : Basket)
    (hb : baskets.find? (fun x => x.id == bid) = some b)
    (hne : (basketItemsOf bitems bid).isEmpty = true) :
    calcCore baskets bitems prices bid = .error .emptyBasket := by
  unfold calcCore
  simp only [hb, hne, if_true]

/-- On every input, `calcCore` returns exactly one of: not-found (no such
basket), empty-basket (basket exists, no items), or a success value. -/
theorem calcCore_cases (baskets : List Basket) (bitems : List BasketItem)
    (prices : List PricePoint) (bid : ℕ) :
    (baskets.find? (fun x => x.id == bid) = none ∧
      calcCore baskets bitems prices bid = .error .notFound) ∨
    (∃ b, baskets.find? (fun x => x.id == bid) = some b ∧
      basketItemsOf bitems bid = [] ∧
      calcCore baskets bitems prices bid = .error .emptyBasket) ∨
    (∃ b r, baskets.find? (fun x => x.id == bid) = some b ∧
      basketItemsOf bitems bid ≠ [] ∧
      calcCore baskets bitems prices bid = .ok r) := by
  cases hb : baskets.find? (fun x => x.id == bid) with
  | none => exact .inl ⟨rfl, calcCore_none baskets bitems prices bid hb⟩
  | some b =>
    cases he : (basketItemsOf bitems bid).isEmpty with
    | true =>
      refine .inr (.inl ⟨b, rfl, List.isEmpty_iff.mp he, ?_⟩)
      exact calcCore_empty baskets bitems prices bid b hb he
    | false =>
      have hne2 : basketItemsOf bitems bid ≠ [] := List.isEmpty_eq_false.mp he
      have hok : ∃ r, calcCore baskets bitems prices bid = .ok r := by
        rw [calcCore_some baskets bitems prices bid b hb he]
        dsimp only
        split
        · exact ⟨_, rfl⟩
        · exact ⟨_, rfl⟩
      obtain ⟨r, hr⟩ := hok
      exact .inr (.inr ⟨b, r, rfl, hne2, hr⟩)

/-!  Theorems settling the claims. -/

/-- C1: the code does NOT select the base price the claim describes.  In
`dbC1` product `P` has two points at or before basket creation (10 at time 1,
12 at time 2).  `calculate_basket_inflation` selects the EARLIEST qualifying
point (price 10) and returns 20% inflation, while the point with the latest
`captured_at <= created_at` — the claim's base price, `selectBasePriceSpec` —
is the one with price 12 (which would give 0%). -/
theorem c1_base_price_is_earliest_not_latest :
    (calculate_basket_inflation dbC1 1 5).1 = .ok (20, 5) ∧
    selectBasePrice 3 dbC1.prices = some ⟨"P", "S", 10, none, 1⟩ ∧
    selectBasePriceSpec 3 dbC1.prices = some ⟨"P", "S", 12, none, 2⟩ := by
  refine ⟨?_, by decide, by decide⟩
  norm_num [calculate_basket_inflation, calcCore, dbC1, basketItemsOf, allPricesOf,
    processItem, itemProductPrices, selectBasePrice, selectCurrentPrice,
    List.insertionSort, List.orderedInsert, leAsc, leDesc, List.filter,
    List.find?, List.foldl]

/-- C9, counterexample: on `dbC9` the query returns the two matching points
in DESCENDING `captured_at` order `[2, 1]`, so the returned sequence is not
ascending as claimed. -/
theorem c9_counterexample_not_ascending :
    (get_product_prices dbC9 ["P"] "S").map (fun p => p.captured_at) = [2, 1]
    ∧ ¬ List.Sorted leAsc (get_product_prices dbC9 ["P"] "S") := by
  refine ⟨by decide, ?_⟩
  intro h
  have : leAsc ⟨"P", "S", 11, none, 2⟩ ⟨"P", "S", 10, none, 1⟩ := by
    have he : get_product_prices dbC9 ["P"] "S"
        = [⟨"P", "S", 11, none, 2⟩, ⟨"P", "S", 10, none, 1⟩] := by decide
    rw [he] at h
    exact List.rel_of_sorted_cons h _ (by simp)
  exact absurd this (by decide)

/-- C7, counterexample: `update_prices` stores a PricePoint with the negative
price -5 without raising any error, so writes do not fail with
`ValidationError` when `price <= 0` and the stored-price invariant
`price > 0` does not hold. -/
theorem c7_counterexample_negative_price_stored :
    (update_prices dbEmpty [.record negRec] "S" 4).1 = .ok () ∧
    (update_prices dbEmpty [.record negRec] "S" 4).2.prices
      = [⟨"P", "S", -5, none, 4⟩] ∧
    ((-5 : ℚ) ≤ 0) := by
  refine ⟨by decide, by decide, by decide⟩

/-- C8: in a run where store `A`'s batch adds one good row (price 2 for `P1`)
and then raises mid-batch on a malformed price, and store `B`'s batch is
healthy, an ErrorLog entry is appended for `A` and `B`'s row is still
committed (isolation holds) — but `A`'s partial row IS committed too: the
per-store handler calls `ErrorService.log_error`, which commits the session
(pending price rows included) before `session.rollback()` runs. -/
theorem c8_partial_store_batch_committed :
    (sched_update_prices 7 sess0
      [("A", .ok [.record (goodRec "P1" 2), .record badRec]),
       ("B", .ok [.record (goodRec "P3" 3)])]).prices
      = [⟨"P1", "A", 2, none, 7⟩, ⟨"P3", "B", 3, none, 7⟩] ∧
    (sched_update_prices 7 sess0
      [("A", .ok [.record (goodRec "P1" 2), .record badRec]),
       ("B", .ok [.record (goodRec "P3" 3)])]).errors
      = [⟨"ERROR", "SCHEDULER", "Failed to update prices for store A",
          "persist"⟩] := by
  refine ⟨?_, ?_⟩ <;> decide

/-- C5, counterexample: basket 1 of `dbC5` holds 50 items and already
contains product `p0`; re-adding `p0` raises `CapacityError` (the capacity
check precedes the existing-item check), while the claim says the call should
instead overwrite the quantity. -/
theorem c5_counterexample_capacity_on_existing :
    (findItem? dbC5 1 "p0").isSome = true ∧
    (add_to_basket dbC5 1 "p0" 7 9).1 = .error .capacity := by
  refine ⟨by decide, by decide⟩

/-- C6: `calculate_basket_inflation` fails with `NotFoundError` exactly when
no basket with the id exists, with `EmptyBasketError` exactly when the basket
exists but has zero items, and in every failure case the database (in
particular the InflationIndex table) is unchanged — both raises precede any
write. -/
theorem c6_calculate_preconditions (db : DB) (bid : ℕ) (t : ℤ) :
    ((calculate_basket_inflation db bid t).1 = .error .notFound ↔
      db.baskets.find? (fun x => x.id == bid) = none) ∧
    ((calculate_basket_inflation db bid t).1 = .error .emptyBasket ↔
      ∃ b, db.baskets.find? (fun x => x.id == bid) = some b ∧
        basketItemsOf db.basket_items bid = []) ∧
    (∀ e, (calculate_basket_inflation db bid t).1 = .error e →
      (calculate_basket_inflation db bid t).2 = db) := by
  rcases calcCore_cases db.baskets db.basket_items db.prices bid with
    ⟨hf, hc⟩ | ⟨b, hf, he, hc⟩ | ⟨b, r, hf, hne, hc⟩
  · rw [calculate_error_eq db bid t _ hc]
    refine ⟨by simp [hf], ⟨fun h => by simp at h, ?_⟩, by simp⟩
    rintro ⟨b, hb, -⟩
    rw [hf] at hb
    cases hb
  · rw [calculate_error_eq db bid t _ hc]
    refine ⟨⟨fun h => by simp at h, fun h => ?_⟩,
      ⟨fun _ => ⟨b, hf, he⟩, fun _ => rfl⟩, by simp⟩
    rw [hf] at h
    cases h
  · obtain ⟨inf, bd⟩ := r
    rw [calculate_ok_eq db bid t inf bd hc]
    refine ⟨⟨fun h => ?_, fun h => ?_⟩, ⟨fun h => ?_, fun h2 => ?_⟩,
      fun e h => ?_⟩
    · cases h
    · rw [hf] at h
      cases h
    · cases h
    · obtain ⟨b2, hb2, he2⟩ := h2
      rw [hf] at hb2
      injection hb2 with hb2
      subst hb2
      exact absurd he2 hne
    · cases h

/-- C6 witness: instantiating the theorem at concrete inputs — on the empty
database basket 99 does not exist, so the call returns `NotFoundError`. -/
theorem c6_calculate_preconditions_witness :
    (calculate_basket_inflation dbEmpty 99 0).1 = .error .notFound :=
  (c6_calculate_preconditions dbEmpty 99 0).1.mpr rfl

/-- C4: recalculating a basket with no intervening changes yields the same
inflation percent on both calls and the same `current_index` in the persisted
index after each call — the calculation is a pure function of the baskets,
items and price history, which the index upsert does not touch. -/
theorem c4_calculate_idempotent (db : DB) (bid : ℕ) (t1 t2 : ℤ) (b : Basket)
    (hb : db.baskets.find? (fun x => x.id == bid) = some b)
    (hne : basketItemsOf db.basket_items bid ≠ [])
    (hpts : ∀ it ∈ basketItemsOf db.basket_items bid,
      ∃ p1 ∈ db.prices, ∃ p2 ∈ db.prices,
        p1.product_id = it.product_id ∧ p1.store_id = b.store_id ∧
        p2.product_id = it.product_id ∧ p2.store_id = b.store_id ∧
        p1.captured_at ≤ b.created_at ∧ b.created_at < p2.captured_at) :
    (calculate_basket_inflation db bid t1).1.map Prod.fst
      = (calculate_basket_inflation
          (calculate_basket_inflation db bid t1).2 bid t2).1.map Prod.fst ∧
    (findIndex? (calculate_basket_inflation db bid t1).2 bid).map
        (fun i => i.current_index)
      = (findIndex? (calculate_basket_inflation
          (calculate_basket_inflation db bid t1).2 bid t2).2 bid).map
        (fun i => i.current_index) := by
  cases hcc : calcCore db.baskets db.basket_items db.prices bid with
  | error e =>
    rw [calculate_error_eq db bid t1 e hcc]
    show (Except.error e : Except CalcError (ℚ × ℤ)).map Prod.fst
        = (calculate_basket_inflation db bid t2).1.map Prod.fst ∧ _
    rw [calculate_error_eq db bid t2 e hcc]
    exact ⟨rfl, rfl⟩
  | ok r =>
    obtain ⟨inf, bd⟩ := r
    rw [calculate_ok_eq db bid t1 inf bd hcc]
    have hcc1 : calcCore
        ({ db with indices :=
            upsertIndex ⟨bid, 100, 100 + inf, bd, t1⟩ db.indices } : DB).baskets
        ({ db with indices :=
            upsertIndex ⟨bid, 100, 100 + inf, bd, t1⟩ db.indices } : DB).basket_items
        ({ db with indices :=
            upsertIndex ⟨bid, 100, 100 + inf, bd, t1⟩ db.indices } : DB).prices
        bid = .ok (inf, bd) := hcc
    show (Except.ok (inf, t1) : Except CalcError (ℚ × ℤ)).map Prod.fst
        = _ ∧ _
    rw [calculate_ok_eq _ bid t2 inf bd hcc1]
    refine ⟨rfl, ?_⟩
    have h1 := find?_upsertIndex
      (⟨bid, 100, 100 + inf, bd, t1⟩ : InflationIndex) db.indices
    have h2 := find?_upsertIndex
      (⟨bid, 100, 100 + inf, bd, t2⟩ : InflationIndex)
      ({ db with indices :=
          upsertIndex ⟨bid, 100, 100 + inf, bd, t1⟩ db.indices } : DB).indices
    show (List.find? _ _).map _ = (List.find? _ _).map _
    rw [h1, h2]
    rfl

/-- C4 witness: instantiating the theorem on `dbW2` (one item, one price
point at or before creation and one after): both calls report the same
inflation percent. -/
theorem c4_calculate_idempotent_witness :
    (calculate_basket_inflation dbW2 1 7).1.map Prod.fst
      = (calculate_basket_inflation
          (calculate_basket_inflation dbW2 1 7).2 1 8).1.map Prod.fst :=
  (c4_calculate_idempotent dbW2 1 7 8 ⟨1, "w2", "S", 3⟩ (by decide) (by decide)
    (by decide)).1

theorem processItem_total_base_of_some (created : ℤ) (aps : List PricePoint)
    (acc : CalcAcc) (it : BasketItem) (bp cp : PricePoint)
    (hbp : selectBasePrice created (itemProductPrices aps it) = some bp)
    (hcp : selectCurrentPrice (itemProductPrices aps it) = some cp) :
    (processItem created aps acc it).total_base
      = acc.total_base + itemBaseValue created aps it ∧
    (processItem created aps acc it).total_current
      = acc.total_current + itemCurrentValue aps it := by
  unfold processItem itemBaseValue itemCurrentValue
  rw [hbp, hcp]
  exact ⟨rfl, rfl⟩

/-- When every item of the list resolves both a base and a current price, the
imperative accumulation of `calculate_basket_inflation` computes exactly the
sums `Σ(base_price_i × quantity_i)` and `Σ(current_price_i × quantity_i)`. -/
theorem foldl_processItem_totals (created : ℤ) (aps : List PricePoint) :
    ∀ (l : List BasketItem) (acc : CalcAcc),
      (∀ it ∈ l, (selectBasePrice created (itemProductPrices aps it)).isSome ∧
                 (selectCurrentPrice (itemProductPrices aps it)).isSome) →
      (l.foldl (processItem created aps) acc).total_base
          = acc.total_base + (l.map (itemBaseValue created aps)).sum ∧
      (l.foldl (processItem created aps) acc).total_current
          = acc.total_current + (l.map (itemCurrentValue aps)).sum
  | [], acc, _ => by simp
  | it :: l, acc, h => by
    obtain ⟨hb, hc⟩ := h it (List.mem_cons_self it l)
    obtain ⟨bp, hbp⟩ := Option.isSome_iff_exists.mp hb
    obtain ⟨cp, hcp⟩ := Option.isSome_iff_exists.mp hc
    obtain ⟨h1, h2⟩ :=
      processItem_total_base_of_some created aps acc it bp cp hbp hcp
    obtain ⟨ih1, ih2⟩ := foldl_processItem_totals created aps l
      (processItem created aps acc it)
      (fun x hx => h x (List.mem_cons_of_mem _ hx))
    constructor
    · rw [List.foldl_cons, ih1, h1, List.map_cons, List.sum_cons]
      ring
    · rw [List.foldl_cons, ih2, h2, List.map_cons, List.sum_cons]
      ring

/-- When no item of the list resolves a base price, the accumulation loop
leaves the accumulator unchanged (every item is skipped). -/
theorem foldl_processItem_of_no_base (created : ℤ) (aps : List PricePoint) :
    ∀ (l : List BasketItem) (acc : CalcAcc),
      (∀ it ∈ l, selectBasePrice created (itemProductPrices aps it) = none) →
      l.foldl (processItem created aps) acc = acc
  | [], _, _ => rfl
  | it :: l, acc, h => by
    have hit := h it (List.mem_cons_self it l)
    have hstep : processItem created aps acc it = acc := by
      unfold processItem
      rw [hit]
    rw [List.foldl_cons, hstep]
    exact foldl_processItem_of_no_base created aps l acc
      (fun x hx => h x (List.mem_cons_of_mem _ hx))

/-- C2: for a basket whose items all resolve both prices and whose total base
value is nonzero, `calculate` returns
`(Σ(current_price_i × quantity_i) / Σ(base_price_i × quantity_i) − 1) × 100`
and persists an InflationIndex with `base_index = 100` and
`current_index = 100 + inflation_percent`. -/
theorem c2_inflation_formula (db : DB) (bid : ℕ) (t : ℤ) (b : Basket)
    (hb : db.baskets.find? (fun x => x.id == bid) = some b)
    (hne : basketItemsOf db.basket_items bid ≠ [])
    (hres : ∀ it ∈ basketItemsOf db.basket_items bid,
      (selectBasePrice b.created_at (itemProductPrices
        (allPricesOf db.prices (basketItemsOf db.basket_items bid) b.store_id)
        it)).isSome ∧
      (selectCurrentPrice (itemProductPrices
        (allPricesOf db.prices (basketItemsOf db.basket_items bid) b.store_id)
        it)).isSome)
    (hbase : ((basketItemsOf db.basket_items bid).map (itemBaseValue
        b.created_at (allPricesOf db.prices (basketItemsOf db.basket_items bid)
          b.store_id))).sum ≠ 0) :
    (calculate_basket_inflation db bid t).1 = .ok
      ((((basketItemsOf db.basket_items bid).map (itemCurrentValue
          (allPricesOf db.prices (basketItemsOf db.basket_items bid)
            b.store_id))).sum
        / ((basketItemsOf db.basket_items bid).map (itemBaseValue b.created_at
          (allPricesOf db.prices (basketItemsOf db.basket_items bid)
            b.store_id))).sum - 1) * 100, t) ∧
    (∃ idx, findIndex? (calculate_basket_inflation db bid t).2 bid = some idx ∧
      idx.base_index = 100 ∧
      idx.current_index = 100 +
        (((basketItemsOf db.basket_items bid).map (itemCurrentValue
            (allPricesOf db.prices (basketItemsOf db.basket_items bid)
              b.store_id))).sum
          / ((basketItemsOf db.basket_items bid).map (itemBaseValue
            b.created_at (allPricesOf db.prices
              (basketItemsOf db.basket_items bid) b.store_id))).sum - 1)
          * 100) := by
  have hene : (basketItemsOf db.basket_items bid).isEmpty = false :=
    List.isEmpty_eq_false.mpr hne
  obtain ⟨hf1, hf2⟩ := foldl_processItem_totals b.created_at
    (allPricesOf db.prices (basketItemsOf db.basket_items bid) b.store_id)
    (basketItemsOf db.basket_items bid) ⟨0, 0, none⟩ hres
  rw [zero_add] at hf1 hf2
  have hcc : calcCore db.baskets db.basket_items db.prices bid = .ok
      ((((basketItemsOf db.basket_items bid).map (itemCurrentValue
          (allPricesOf db.prices (basketItemsOf db.basket_items bid)
            b.store_id))).sum
        / ((basketItemsOf db.basket_items bid).map (itemBaseValue b.created_at
          (allPricesOf db.prices (basketItemsOf db.basket_items bid)
            b.store_id))).sum - 1) * 100,
       (((basketItemsOf db.basket_items bid).foldl (processItem b.created_at
          (allPricesOf db.prices (basketItemsOf db.basket_items bid)
            b.store_id)) ⟨0, 0, none⟩).base_date).getD b.created_at) := by
    rw [calcCore_some db.baskets db.basket_items db.prices bid b hb hene]
    dsimp only
    rw [if_neg (by rw [hf1]; exact hbase), hf1, hf2]
  rw [calculate_ok_eq db bid t _ _ hcc]
  refine ⟨rfl, ?_⟩
  simp only [findIndex?]
  have hfind := find?_upsertIndex
    (⟨bid, 100, 100 +
      ((((basketItemsOf db.basket_items bid).map (itemCurrentValue
          (allPricesOf db.prices (basketItemsOf db.basket_items bid)
            b.store_id))).sum
        / ((basketItemsOf db.basket_items bid).map (itemBaseValue b.created_at
          (allPricesOf db.prices (basketItemsOf db.basket_items bid)
            b.store_id))).sum - 1) * 100),
      (((basketItemsOf db.basket_items bid).foldl (processItem b.created_at
          (allPricesOf db.prices (basketItemsOf db.basket_items bid)
            b.store_id)) ⟨0, 0, none⟩).base_date).getD b.created_at, t⟩ :
      InflationIndex) db.indices
  exact ⟨_, hfind, rfl, rfl⟩

/-- C2 witness: on `dbW2` (one item, quantity 2, base price 10, current
price 11) the theorem instantiates to 10% inflation. -/
theorem c2_inflation_formula_witness :
    (calculate_basket_inflation dbW2 1 9).1 = .ok (10, 9) := by
  have h := (c2_inflation_formula dbW2 1 9 ⟨1, "w2", "S", 3⟩ rfl (by decide)
    (by decide) (by norm_num [dbW2, basketItemsOf, allPricesOf, itemBaseValue,
      itemProductPrices, selectBasePrice, List.insertionSort,
      List.orderedInsert, leAsc, List.filter])).1
  rw [h]
  norm_num [dbW2, basketItemsOf, allPricesOf, itemBaseValue, itemCurrentValue,
    itemProductPrices, selectBasePrice, selectCurrentPrice,
    List.insertionSort, List.orderedInsert, leAsc, leDesc, List.filter]

/-- C3: for an existing, non-empty basket in which no item resolves a base
price, `calculate` returns 0% inflation and still persists an InflationIndex
with `base_index = current_index = 100` and `base_date = basket.created_at`. -/
theorem c3_zero_base_fallback (db : DB) (bid : ℕ) (t : ℤ) (b : Basket)
    (hb : db.baskets.find? (fun x => x.id == bid) = some b)
    (hne : basketItemsOf db.basket_items bid ≠ [])
    (hnone : ∀ it ∈ basketItemsOf db.basket_items bid,
      selectBasePrice b.created_at (itemProductPrices
        (allPricesOf db.prices (basketItemsOf db.basket_items bid) b.store_id)
        it) = none) :
    (calculate_basket_inflation db bid t).1 = .ok (0, t) ∧
    findIndex? (calculate_basket_inflation db bid t).2 bid
      = some ⟨bid, 100, 100, b.created_at, t⟩ := by
  have hene : (basketItemsOf db.basket_items bid).isEmpty = false :=
    List.isEmpty_eq_false.mpr hne
  have hfold := foldl_processItem_of_no_base b.created_at
    (allPricesOf db.prices (basketItemsOf db.basket_items bid) b.store_id)
    (basketItemsOf db.basket_items bid) ⟨0, 0, none⟩ hnone
  have hcc : calcCore db.baskets db.basket_items db.prices bid
      = .ok (0, b.created_at) := by
    rw [calcCore_some db.baskets db.basket_items db.prices bid b hb hene]
    dsimp only
    rw [hfold]
    rfl
  rw [calculate_ok_eq db bid t _ _ hcc]
  have heq : (⟨bid, 100, 100 + 0, b.created_at, t⟩ : InflationIndex)
      = ⟨bid, 100, 100, b.created_at, t⟩ := by norm_num
  rw [heq]
  exact ⟨rfl, find?_upsertIndex (⟨bid, 100, 100, b.created_at, t⟩ :
    InflationIndex) db.indices⟩

/-- C3 witness: on `dbW3` (one item whose only price point is after basket
creation) the call returns 0% and the persisted index is exactly
`(100, 100, created_at, t)`. -/
theorem c3_zero_base_fallback_witness :
    (calculate_basket_inflation dbW3 1 6).1 = .ok (0, 6) ∧
    findIndex? (calculate_basket_inflation dbW3 1 6).2 1
      = some ⟨1, 100, 100, 3, 6⟩ :=
  c3_zero_base_fallback dbW3 1 6 ⟨1, "w3", "S", 3⟩ rfl (by decide) (by decide)

/-- Overwriting one item's quantity never changes how many items a basket
holds (`setQuantity` preserves every `basket_id`). -/
theorem setQuantity_filter_basket_length (bid bid2 : ℕ) (pid : String)
    (q : ℤ) :
    ∀ l : List BasketItem,
      ((setQuantity bid pid q l).filter
        (fun it => it.basket_id == bid2)).length
        = (l.filter (fun it => it.basket_id == bid2)).length
  | [] => rfl
  | it :: rest => by
    have ih := setQuantity_filter_basket_length bid bid2 pid q rest
    by_cases h : (it.basket_id == bid && it.product_id == pid) = true
    · simp only [setQuantity, if_pos h, List.filter_cons]
      cases hp : (it.basket_id == bid2) <;> simp [hp]
    · simp only [setQuantity, if_neg h, List.filter_cons]
      cases hp : (it.basket_id == bid2) <;> simp [hp, ih]

/-- C5 (amended): for an existing basket, `add_to_basket` raises
`CapacityError` exactly when the basket already holds 50 items — REGARDLESS
of whether the product is already in the basket (the capacity check precedes
the existing-item check); below capacity, re-adding an existing product
overwrites its quantity and leaves the item count unchanged, and adding a new
product (in particular the 50th) succeeds and grows the count by one. -/
theorem c5_add_to_basket_amended (db : DB) (bid : ℕ) (pid : String)
    (q t : ℤ) (b : Basket)
    (hb : db.baskets.find? (fun x => x.id == bid) = some b) :
    ((add_to_basket db bid pid q t).1 = .error .capacity ↔
      50 ≤ (basketItemsOf db.basket_items bid).length) ∧
    ((basketItemsOf db.basket_items bid).length < 50 →
      ∀ it, findItem? db bid pid = some it →
        (add_to_basket db bid pid q t).1 = .ok { it with quantity := q } ∧
        (basketItemsOf (add_to_basket db bid pid q t).2.basket_items
          bid).length = (basketItemsOf db.basket_items bid).length) ∧
    ((basketItemsOf db.basket_items bid).length < 50 →
      findItem? db bid pid = none →
        (add_to_basket db bid pid q t).1 = .ok ⟨bid, pid, q, t⟩ ∧
        (basketItemsOf (add_to_basket db bid pid q t).2.basket_items
          bid).length = (basketItemsOf db.basket_items bid).length + 1) := by
  unfold add_to_basket
  rw [hb]
  by_cases hcap : (basketItemsOf db.basket_items bid).length ≥ 50
  · rw [if_pos hcap]
    exact ⟨⟨fun _ => hcap, fun _ => rfl⟩,
      fun hlt => absurd hcap (by omega),
      fun hlt => absurd hcap (by omega)⟩
  · rw [if_neg hcap]
    refine ⟨⟨fun h => ?_, fun h => absurd h hcap⟩, ?_, ?_⟩
    · cases hf : findItem? db bid pid with
      | some it => rw [hf] at h; simp at h
      | none => rw [hf] at h; simp at h
    · intro hlt it hf
      rw [hf]
      refine ⟨rfl, ?_⟩
      exact setQuantity_filter_basket_length bid bid pid q db.basket_items
    · intro hlt hf
      rw [hf]
      refine ⟨rfl, ?_⟩
      simp [basketItemsOf, List.filter_append]

/-- C5 (amended) witness: on `dbW5` (one item `p0`, below capacity),
re-adding `p0` with quantity 7 overwrites the quantity. -/
theorem c5_add_to_basket_amended_witness :
    (add_to_basket dbW5 1 "p0" 7 9).1 = .ok ⟨1, "p0", 7, 0⟩ :=
  ((c5_add_to_basket_amended dbW5 1 "p0" 7 9 ⟨1, "w", "S", 0⟩ rfl).2.1
    (by decide) ⟨1, "p0", 1, 0⟩ (by decide)).1

theorem processRecord_price_ne_zero (sid : String) (t : ℤ) :
    ∀ (d : PriceData) (row : PricePoint),
      processRecord sid t d = .ok (some row) → row.price ≠ 0
  | .str s, row, h => by simp [processRecord] at h
  | .record r, row, h => by
    simp only [processRecord] at h
    cases hi : r.items with
    | nil => rw [hi] at h; simp at h
    | cons item0 rest =>
      rw [hi] at h
      dsimp only at h
      cases hr : item0.regular with
      | missing => rw [hr] at h; simp at h
      | malformed => rw [hr] at h; simp at h
      | num qq =>
        rw [hr] at h
        dsimp only at h
        by_cases hq : qq = 0
        · rw [if_pos hq] at h; simp at h
        · rw [if_neg hq] at h
          simp only [Except.ok.injEq, Option.some.injEq] at h
          subst h
          exact hq

theorem processRecords_all_ne_zero (sid : String) (t : ℤ) :
    ∀ (l : List PriceData) (rows : List PricePoint),
      processRecords sid t l = .ok rows → ∀ p ∈ rows, p.price ≠ 0
  | [], rows, h => by
    simp only [processRecords, Except.ok.injEq] at h
    subst h
    simp
  | d :: ds, rows, h => by
    unfold processRecords at h
    cases hd : processRecord sid t d with
    | error e => rw [hd] at h; simp at h
    | ok o =>
      rw [hd] at h
      cases o with
      | none => exact processRecords_all_ne_zero sid t ds rows h
      | some row =>
        cases hrest : processRecords sid t ds with
        | error e => rw [hrest] at h; simp [Except.map] at h
        | ok rs =>
          rw [hrest] at h
          simp only [Except.map, Except.ok.injEq] at h
          subst h
          intro p hp
          rcases List.mem_cons.mp hp with rfl | hmem
          · exact processRecord_price_ne_zero sid t d p hd
          · exact processRecords_all_ne_zero sid t ds rs hrest p hmem

theorem schedProcessData_price_ne_zero (sid : String) (t : ℤ) :
    ∀ (d : PriceData) (row : PricePoint),
      schedProcessData sid t d = .ok (some row) → row.price ≠ 0
  | .str s, row, h => by simp [schedProcessData] at h
  | .record r, row, h => by
    simp only [schedProcessData] at h
    by_cases hp : r.productId = ""
    · rw [if_pos hp] at h; simp at h
    · rw [if_neg hp] at h
      cases hi : r.items with
      | nil => rw [hi] at h; simp at h
      | cons item0 rest =>
        rw [hi] at h
        dsimp only at h
        cases hr : item0.regular with
        | missing => rw [hr] at h; simp at h
        | malformed => rw [hr] at h; simp at h
        | num qq =>
          rw [hr] at h
          dsimp only at h
          by_cases hq : qq = 0
          · rw [if_pos hq] at h; simp at h
          · rw [if_neg hq] at h
            simp only [Except.ok.injEq, Option.some.injEq] at h
            subst h
            exact hq

/-- `schedAddRows` only appends nonzero-price rows to the pending adds and
touches nothing else in the session. -/
theorem schedAddRows_facts (sid : String) (t : ℤ) :
    ∀ (ds : List PriceData) (s : Sess),
      (∀ p ∈ s.pendingPrices, p.price ≠ 0) →
      ((∀ p ∈ (schedAddRows sid t s ds).1.pendingPrices, p.price ≠ 0) ∧
       (schedAddRows sid t s ds).1.prices = s.prices ∧
       (schedAddRows sid t s ds).1.errors = s.errors ∧
       (schedAddRows sid t s ds).1.pendingErrors = s.pendingErrors)
  | [], s, hpend => ⟨hpend, rfl, rfl, rfl⟩
  | d :: ds, s, hpend => by
    unfold schedAddRows
    cases hd : schedProcessData sid t d with
    | error e => exact ⟨hpend, rfl, rfl, rfl⟩
    | ok o =>
      cases o with
      | none => exact schedAddRows_facts sid t ds s hpend
      | some row =>
        refine schedAddRows_facts sid t ds
          { s with pendingPrices := s.pendingPrices ++ [row] } ?_
        intro p hp
        rcases List.mem_append.mp hp with hmem | hmem
        · exact hpend p hmem
        · rw [List.mem_singleton.mp hmem]
          exact schedProcessData_price_ne_zero sid t d row hd

/-- One store batch preserves the invariant that every committed or pending
price row has a nonzero price. -/
theorem processStoreBatch_invariant (t : ℤ) (s : Sess)
    (batch : String × Except SvcError (List PriceData))
    (h1 : ∀ p ∈ s.prices, p.price ≠ 0)
    (h2 : ∀ p ∈ s.pendingPrices, p.price ≠ 0) :
    (∀ p ∈ (processStoreBatch t s batch).prices, p.price ≠ 0) ∧
    (∀ p ∈ (processStoreBatch t s batch).pendingPrices, p.price ≠ 0) := by
  obtain ⟨sid, fetch⟩ := batch
  unfold processStoreBatch
  cases fetch with
  | error e =>
    constructor
    · intro p hp
      simp only [handleStoreError, log_error, Sess.commit, Sess.rollback] at hp
      rcases List.mem_append.mp hp with hmem | hmem
      · exact h1 p hmem
      · exact h2 p hmem
    · intro p hp
      simp [handleStoreError, log_error, Sess.commit, Sess.rollback] at hp
  | ok ds =>
    obtain ⟨hpend, hpr, he1, he2⟩ := schedAddRows_facts sid t ds s h2
    cases har : schedAddRows sid t s ds with
    | mk s1 raised =>
      rw [har] at hpend hpr
      dsimp only at hpend hpr
      cases raised with
      | false =>
        simp only [har]
        constructor
        · intro p hp
          simp only [Sess.commit] at hp
          rcases List.mem_append.mp hp with hmem | hmem
          · exact h1 p (hpr ▸ hmem)
          · exact hpend p hmem
        · intro p hp
          simp [Sess.commit] at hp
      | true =>
        simp only [har]
        constructor
        · intro p hp
          simp only [handleStoreError, log_error, Sess.commit,
            Sess.rollback] at hp
          rcases List.mem_append.mp hp with hmem | hmem
          · exact h1 p (hpr ▸ hmem)
          · exact hpend p hmem
        · intro p hp
          simp [handleStoreError, log_error, Sess.commit, Sess.rollback] at hp

theorem sched_update_prices_ne_zero (t : ℤ) :
    ∀ (batches : List (String × Except SvcError (List PriceData))) (s : Sess),
      (∀ p ∈ s.prices, p.price ≠ 0) →
      (∀ p ∈ s.pendingPrices, p.price ≠ 0) →
      ∀ p ∈ (sched_update_prices t s batches).prices, p.price ≠ 0
  | [], s, h1, _ => h1
  | batch :: batches, s, h1, h2 => by
    obtain ⟨k1, k2⟩ := processStoreBatch_invariant t s batch h1 h2
    exact sched_update_prices_ne_zero t batches
      (processStoreBatch t s batch) k1 k2

/-- C7 (amended): neither `ProductService.update_prices` nor the scheduler
raises a `ValidationError` for non-positive prices; instead, entries whose
regular price is missing or zero (falsy) are silently skipped, and any other
regular price — negative included — is stored as-is.  Consequently every
PricePoint those paths store has `price ≠ 0`, not the claimed `price > 0`. -/
theorem c7_stored_prices_nonzero_amended :
    (∀ (db : DB) (pd : List PriceData) (sid : String) (t : ℤ)
      (p : PricePoint), p ∈ (update_prices db pd sid t).2.prices →
        p ∈ db.prices ∨ p.price ≠ 0) ∧
    (∀ (batches : List (String × Except SvcError (List PriceData))) (t : ℤ)
      (p : PricePoint), p ∈ (sched_update_prices t sess0 batches).prices →
        p.price ≠ 0) := by
  constructor
  · intro db pd sid t p hp
    unfold update_prices at hp
    cases hr : processRecords sid t pd with
    | error e =>
      rw [hr] at hp
      exact .inl hp
    | ok rows =>
      rw [hr] at hp
      simp only at hp
      rcases List.mem_append.mp hp with hmem | hmem
      · exact .inl hmem
      · exact .inr (processRecords_all_ne_zero sid t pd rows hr p hmem)
  · intro batches t p hp
    exact sched_update_prices_ne_zero t batches sess0 (by simp [sess0])
      (by simp [sess0]) p hp

/-- C7 (amended) witness: instantiating the update half on the `negRec` run —
the stored point with price -5 is new and indeed has nonzero price. -/
theorem c7_stored_prices_nonzero_amended_witness :
    (⟨"P", "S", -5, none, 4⟩ : PricePoint) ∈ dbEmpty.prices ∨
      (⟨"P", "S", -5, none, 4⟩ : PricePoint).price ≠ 0 :=
  c7_stored_prices_nonzero_amended.1 dbEmpty [.record negRec] "S" 4
    ⟨"P", "S", -5, none, 4⟩ (by decide)

/-- C9 (amended): the price query returns exactly the matching PricePoints
(as a permutation of the filtered rows) ordered DESCENDING by `captured_at`;
it reads the store without modifying it. -/
theorem c9_query_descending_amended (db : DB) (ids : List String)
    (sid : String) :
    List.Sorted leDesc (get_product_prices db ids sid) ∧
    List.Perm (get_product_prices db ids sid)
      (db.prices.filter (fun p =>
        ids.contains p.product_id && p.store_id == sid)) :=
  ⟨List.sorted_insertionSort leDesc _, List.perm_insertionSort leDesc _⟩

theorem schedAddRows_dict (sid : String) (t : ℤ) :
    ∀ (d : List (String × ℚ)) (s : Sess),
      schedAddRows sid t s (dictToIter d) = (s, false)
  | [], _ => rfl
  | kv :: d, s => by
    simp only [dictToIter, List.map_cons, schedAddRows, schedProcessData]
    simpa [dictToIter] using schedAddRows_dict sid t d s

/-- C10: the dict that `KrogerAPI.get_product_prices` actually returns is
iterated as string keys by both consumers, so a scheduler run over it commits
zero PriceHistory rows (the `isinstance` guard skips every key, and no error
is logged), and `ProductService.update_prices` persists nothing either (an
empty dict commits nothing; a non-empty one raises `AttributeError` at
`price_data.get` before any write). -/
theorem c10_dict_shape_appends_nothing (d : List (String × ℚ)) (sid : String)
    (t : ℤ) (db : DB) :
    (sched_update_prices t sess0 [(sid, .ok (dictToIter d))]).prices = [] ∧
    (sched_update_prices t sess0 [(sid, .ok (dictToIter d))]).errors = [] ∧
    (update_prices db (dictToIter d) sid t).2.prices = db.prices := by
  refine ⟨?_, ?_, ?_⟩
  · simp [sched_update_prices, processStoreBatch, schedAddRows_dict,
      Sess.commit, sess0]
  · simp [sched_update_prices, processStoreBatch, schedAddRows_dict,
      Sess.commit, sess0]
  · cases d with
    | nil => simp [update_prices, dictToIter, processRecords]
    | cons kv rest =>
      simp [update_prices, dictToIter, processRecords, processRecord]

end Basketcase
